import Mathlib

/-!
Verification of the video-upload core of the Manish photography backend.

The JavaScript sources are shallowly embedded: pure helpers become Lean
functions, number arithmetic is modelled over the rationals (all byte
counts involved stay far below 2 to the power 53, and the divisors used by
the code are powers of two, so double-precision evaluation of the modelled
expressions is exact except where noted at toFixed rounding), buffers are
lists of bytes, the filesystem visible to one compression run is the list
of temp-file paths present, and every external effect (ffmpeg, the remote
object store, the database) is an explicit outcome parameter threaded into
the embedded function, mirroring exactly how the JS code branches on the
result of the corresponding call.
-/

/-! ### JavaScript string primitives used by the sources -/

/-- Model of a byte buffer: the list of its bytes. -/
abbrev Buffer := List Nat

/-- JS String.prototype.toLowerCase restricted to the ASCII names the code
handles: lower-cases every character. -/
def toLowerJS (s : String) : String := String.mk (s.data.map Char.toLower)

/-- JS String.prototype.startsWith. -/
def startsWithJS (s pre : String) : Bool := pre.data.isPrefixOf s.data

/-- Test of an unanchored regular expression that is a plain alternation of
literal tokens, as in the multer fileFilter code: the regex matches the
string iff some token occurs in it as a contiguous substring. -/
def jsRegexTestAny (tokens : List String) (s : String) : Bool :=
  tokens.any (fun t => decide (t.data <:+: s.data))

/-- JS String.prototype.split with separator a single dot, on char lists:
splitting never yields the empty list, and keeps empty segments. -/
def jsSplitDot : List Char → List (List Char)
  | [] => [[]]
  | c :: rest =>
    if c = '.' then [] :: jsSplitDot rest
    else
      match jsSplitDot rest with
      | [] => [[c]]
      | h :: t => (c :: h) :: t

/-- The last element produced by jsSplitDot: the JS idiom of splitting a
name on dots and popping the final segment. -/
def lastSegment (cs : List Char) : List Char := (jsSplitDot cs).getLastD []

/-- Declarative description of the text after the last dot of a name: if the
name contains a dot, the characters strictly after its last dot, otherwise
the whole name. Used as the spec-side characterisation for claim C10. -/
def afterLastDot (cs : List Char) : List Char :=
  if '.' ∈ cs then (cs.reverse.takeWhile (fun c => c ≠ '.')).reverse else cs

/-- Node path.extname, lower-level model on the raw file name: the extension
from the last dot (inclusive) to the end, empty when the name has no dot or
its only dot is the leading character of a hidden file. -/
def extnameJS (name : String) : String :=
  let cs := name.data
  let after := cs.reverse.takeWhile (fun c => c ≠ '.')
  if after.length = cs.length then ""
  else if after.length + 1 = cs.length then ""
  else String.mk ('.' :: after.reverse)

/-- Decimal digit characters of a natural number, fuel-indexed so that the
kernel can evaluate it; fuel at least the number itself suffices. -/
def natToDecCharsAux : ℕ → ℕ → List Char
  | 0, _ => []
  | fuel + 1, n =>
    if n = 0 then [] else natToDecCharsAux fuel (n / 10) ++ [Nat.digitChar (n % 10)]

/-- Decimal string of a natural number, the JS stringification of an integer
Number as used by template literals. -/
def natToDecChars (n : ℕ) : List Char :=
  if n = 0 then ['0'] else natToDecCharsAux n n

/-- JS Number.prototype.toFixed with d digits, as a rational: the value is
rounded to the nearest multiple of 10 to the power minus d, half going up. -/
def jsToFixed (d : ℕ) (x : ℚ) : ℚ :=
  ((⌊x * (10 : ℚ) ^ d + 1 / 2⌋ : ℤ) : ℚ) / (10 : ℚ) ^ d

/-! ### VideoCompressionService (src/src/services/videoCompressionService.js)

The service drives ffmpeg over temporary files. The filesystem a run touches
is modelled as the list of temp-file paths currently present; writing a file
inserts its path, the cleanup helper removes paths. The behaviour of the
external ffmpeg process and of the read of its output file are outcome
parameters, matching the three ways the promise settles in the source: the
end handler with a successful read, the end handler whose read throws, and
the error handler. -/

namespace VideoCompressionService

/-- Temp input path: path.join of the temp dir with the template literal
input underscore Date.now() dot mp4. The timestamp is the argument. -/
def tempInputPath (now : ℕ) : String :=
  String.mk ("photography-backend/input_".data ++ (natToDecChars now ++ ".mp4".data))

/-- Temp output path, same construction with the output stem. -/
def tempOutputPath (now : ℕ) : String :=
  String.mk ("photography-backend/output_".data ++ (natToDecChars now ++ ".mp4".data))

/-- Source shouldCompress: the buffer length in MB exceeds the target
(the JS default for the target is 50). -/
def shouldCompress (buffer : Buffer) (targetSizeMB : ℚ) : Bool :=
  decide ((buffer.length : ℚ) / (1024 * 1024) > targetSizeMB)

/-- Source calculateBitrate: floor of the byte budget spread over the
duration, in kbps, at least 500. -/
def calculateBitrate (targetSizeMB durationSeconds : ℚ) : ℤ :=
  max ⌊targetSizeMB * 8 * 1024 * 1024 / durationSeconds / 1000⌋ 500

/-- Property names every plain JS object literal inherits from
Object.prototype in Node: bracket lookup with one of these keys finds the
inherited member (a function, or the prototype object for the dunder proto
accessor), every one of which is truthy, so the or-fallback after the
lookup is not taken for them. -/
def objectProtoKeys : List String :=
  ["constructor", "hasOwnProperty", "isPrototypeOf", "propertyIsEnumerable",
    "toLocaleString", "toString", "valueOf", "__proto__",
    "__defineGetter__", "__defineSetter__", "__lookupGetter__", "__lookupSetter__"]

/-- What the JS expression presets[quality] or-else fast evaluates to: one
of the own string values of the literal, or a truthy member inherited from
Object.prototype, tagged with the key that found it. -/
inductive PresetValue where
  | str (s : String)
  | inherited (key : String)
  deriving DecidableEq

/-- What the JS expression crfValues[quality] or-else 23 evaluates to: one
of the own numeric values of the literal, or a truthy member inherited
from Object.prototype, tagged with the key that found it. -/
inductive CrfValue where
  | num (n : ℕ)
  | inherited (key : String)
  deriving DecidableEq

/-- Source getPreset: bracket lookup in the three-key object literal with
an or-fallback to fast. The lookup walks the prototype chain: the three own
keys give their own (truthy) string values, an Object.prototype key gives
the inherited truthy member, and only any remaining key gives undefined
and so falls back to fast. -/
def getPreset (quality : String) : PresetValue :=
  if quality = "low" then .str "ultrafast"
  else if quality = "medium" then .str "fast"
  else if quality = "high" then .str "medium"
  else if quality ∈ objectProtoKeys then .inherited quality
  else .str "fast"

/-- Source getCRF: bracket lookup in the three-key object literal with an
or-fallback to 23, with the same prototype-chain behaviour as getPreset. -/
def getCRF (quality : String) : CrfValue :=
  if quality = "low" then .num 28
  else if quality = "medium" then .num 23
  else if quality = "high" then .num 18
  else if quality ∈ objectProtoKeys then .inherited quality
  else .num 23

/-- Source cleanupTempFiles on the modelled filesystem: each listed path is
unlinked when present; the result is the filesystem without those paths. -/
def cleanupTempFiles (fs filePaths : List String) : List String :=
  fs.filter (fun f => decide (f ∉ filePaths))

/-- Writing a file: its path becomes present. -/
def fsWrite (fs : List String) (p : String) : List String :=
  if p ∈ fs then fs else p :: fs

/-- The record the compression promise resolves with; sizes are the MB
figures the code formats with toFixed 2, and the ratio field carries the
percentage the code formats with toFixed 1. -/
structure CompressResult where
  buffer : Buffer
  originalSize : ℚ
  compressedSize : ℚ
  compressionRatio : ℚ
  deriving DecidableEq

/-- The compressionRatio value the end handler computes from the two
measured byte sizes: the percentage, rounded by toFixed 1. -/
def compressionRatioReported (originalSize compressedLen : ℕ) : ℚ :=
  jsToFixed 1 (((originalSize : ℚ) - (compressedLen : ℚ)) / (originalSize : ℚ) * 100)

/-- How the external ffmpeg process settles: the end event, or the error
event with a flag recording whether an incomplete output file had been
created by the failed run. -/
inductive FfmpegOutcome where
  | ended
  | errored (msg : String) (outputWritten : Bool)

/-- One settled run of compressVideoBuffer: how the promise settled and the
temp filesystem afterwards. -/
structure CompressRun where
  result : Except String CompressResult
  fs : List String

/-- Source compressVideoBuffer: write the input temp file, run ffmpeg, on
the end event read the output file, compute the sizes and the ratio, clean
up both temp files and resolve; when the read throws, clean up and reject;
on the error event, clean up and reject. The two Date.now() reads that name
the temp files are the nowIn and nowOut arguments. -/
def compressVideoBuffer (fs0 : List String) (nowIn nowOut : ℕ) (buffer : Buffer)
    (ff : FfmpegOutcome) (readOutcome : Except String Buffer) : CompressRun :=
  let inputPath := tempInputPath nowIn
  let outputPath := tempOutputPath nowOut
  let fs1 := fsWrite fs0 inputPath
  let originalSize := buffer.length
  match ff with
  | .ended =>
    let fs2 := fsWrite fs1 outputPath
    match readOutcome with
    | .ok compressedBuffer =>
      ⟨.ok ⟨compressedBuffer,
            jsToFixed 2 ((originalSize : ℚ) / (1024 * 1024)),
            jsToFixed 2 ((compressedBuffer.length : ℚ) / (1024 * 1024)),
            compressionRatioReported originalSize compressedBuffer.length⟩,
        cleanupTempFiles fs2 [inputPath, outputPath]⟩
    | .error msg =>
      ⟨.error ("Failed to read compressed file: " ++ msg),
        cleanupTempFiles fs2 [inputPath, outputPath]⟩
  | .errored msg outputWritten =>
    let fs2 := if outputWritten then fsWrite fs1 outputPath else fs1
    ⟨.error ("Video compression failed: " ++ msg),
      cleanupTempFiles fs2 [inputPath, outputPath]⟩

/-- One invocation of compressVideoBuffer as seen from outside: which call
it is, and the two Date.now() millisecond values it observed when naming
its input and output temp files. -/
structure Invocation where
  callId : ℕ
  nowIn : ℕ
  nowOut : ℕ
  deriving DecidableEq

/-- The input temp path an invocation generates. -/
def invInputPath (i : Invocation) : String := tempInputPath i.nowIn

/-- The output temp path an invocation generates. -/
def invOutputPath (i : Invocation) : String := tempOutputPath i.nowOut

end VideoCompressionService


/-! ### Uploaded-file records -/

/-- A file as multer describes it to a fileFilter: original name, declared
MIME type, and the number of bytes streamed. -/
structure MulterFile where
  originalname : String
  mimetype : String
  size : ℕ
  deriving DecidableEq

/-- A file as the storage services receive it from multer memory storage:
original name, declared MIME type, and the in-memory buffer (none when an
upstream used disk storage and only a path is available). -/
structure UploadFile where
  originalname : String
  mimetype : String
  buffer : Option Buffer
  deriving DecidableEq

/-! ### CloudinaryService (src/unnamed/part_008) -/

namespace CloudinaryService

/-- Response of the cloudinary upload-stream call. -/
structure UploadResponse where
  publicId : String
  secureUrl : String
  bytes : ℕ
  duration : ℚ
  deriving DecidableEq

/-- The thumbnail URL the SDK URL builder derives from the public id,
modelled as a tagged function of that id. -/
def videoThumbUrl (publicId : String) : String :=
  "cloudinary-video-thumb/" ++ publicId

/-- The record uploadVideo resolves with. -/
structure UploadedVideo where
  publicId : String
  url : String
  size : ℕ
  duration : ℚ
  thumbnailUrl : String
  deriving DecidableEq

/-- Outcomes of the external calls uploadVideo makes: how its one possible
compressVideoBuffer call settles, how the upload-stream call settles on a
given buffer, and how the path-based upload settles when there is no
in-memory buffer. -/
structure UploadEnv where
  compressOutcome : Except String VideoCompressionService.CompressResult
  storeOutcome : Buffer → Except String UploadResponse
  storeFromPath : Except String UploadResponse

/-- One settled run of uploadVideo: the result, the buffer actually handed
to the store (none on the path branch), and whether the compression engine
was invoked. -/
structure UploadRun where
  result : Except String UploadedVideo
  uploadedBuffer : Option Buffer
  compressionInvoked : Bool

/-- Shape of the value returned to the caller on success. -/
def mkUploadedVideo (r : UploadResponse) : UploadedVideo :=
  ⟨r.publicId, r.secureUrl, r.bytes, r.duration, videoThumbUrl r.publicId⟩

/-- Source CloudinaryService.uploadVideo: with an in-memory buffer, ask
shouldCompress with threshold 50; when it says yes, try the compression
engine (targetSizeMB 50, quality medium, removeAudio true) and fall back to
the original buffer when that call rejects; then upload the chosen buffer.
Any error escaping the try block surfaces as the wrapped failure message. -/
def uploadVideo (env : UploadEnv) (file : UploadFile) : UploadRun :=
  match file.buffer with
  | some b =>
    let needsCompression := VideoCompressionService.shouldCompress b 50
    let chosen : Buffer × Bool :=
      if needsCompression then
        match env.compressOutcome with
        | .ok r => (r.buffer, true)
        | .error _ => (b, true)
      else (b, false)
    match env.storeOutcome chosen.1 with
    | .ok r => ⟨.ok (mkUploadedVideo r), some chosen.1, chosen.2⟩
    | .error e => ⟨.error ("Failed to upload video: " ++ e), some chosen.1, chosen.2⟩
  | none =>
    match env.storeFromPath with
    | .ok r => ⟨.ok (mkUploadedVideo r), none, false⟩
    | .error e => ⟨.error ("Failed to upload video: " ++ e), none, false⟩

end CloudinaryService

/-! ### S3Service (src/unnamed/part_005, second file) -/

namespace S3Service

/-- The record S3Service.uploadVideo resolves with. -/
structure UploadedVideo where
  publicId : String
  url : String
  format : String
  size : ℕ
  thumbnailUrl : String
  deriving DecidableEq

/-- Outcomes and configuration of the external calls: the settle of the one
possible compression call, the settle of the s3 upload on a given buffer
(resolving with the object location URL), the uuid drawn for the key, the
bucket and folder names, and the bytes read when only a path is given.
The createFolder helper swallows its own failures and does not affect the
result, so it has no outcome here. -/
structure UploadEnv where
  compressOutcome : Except String VideoCompressionService.CompressResult
  storeOutcome : Buffer → Except String String
  uuid : String
  bucketName : String
  folder : String
  pathContent : Buffer

/-- One settled run of S3Service.uploadVideo. -/
structure UploadRun where
  result : Except String UploadedVideo
  uploadedBuffer : Option Buffer
  compressionInvoked : Bool

/-- The public bucket URL of a key. -/
def s3Url (bucketName key : String) : String :=
  "https://" ++ bucketName ++ ".s3.amazonaws.com/" ++ key

/-- The file extension used for the key: the last dot-segment of the
original name, or mp4 when the name is empty (JS falsy check). -/
def keyExtension (originalname : String) : String :=
  if originalname = "" then "mp4" else String.mk (lastSegment originalname.data)

/-- Source S3Service.uploadVideo: same compress-or-fall-back decision as the
cloudinary uploader (threshold 50, targetSizeMB 50, quality medium, audio
kept), then an upload of the chosen buffer under a uuid-based key; with no
in-memory buffer the file is read from its path first. -/
def uploadVideo (env : UploadEnv) (file : UploadFile) : UploadRun :=
  let ext := keyExtension file.originalname
  let key := env.folder ++ "/" ++ env.uuid ++ "." ++ ext
  match file.buffer with
  | some b =>
    let needsCompression := VideoCompressionService.shouldCompress b 50
    let chosen : Buffer × Bool :=
      if needsCompression then
        match env.compressOutcome with
        | .ok r => (r.buffer, true)
        | .error _ => (b, true)
      else (b, false)
    match env.storeOutcome chosen.1 with
    | .ok loc =>
      ⟨.ok ⟨key, loc, ext, chosen.1.length, s3Url env.bucketName key⟩,
        some chosen.1, chosen.2⟩
    | .error e => ⟨.error ("Failed to upload video: " ++ e), some chosen.1, chosen.2⟩
  | none =>
    match env.storeOutcome env.pathContent with
    | .ok loc =>
      ⟨.ok ⟨key, loc, ext, env.pathContent.length, s3Url env.bucketName key⟩,
        some env.pathContent, false⟩
    | .error e => ⟨.error ("Failed to upload video: " ++ e), some env.pathContent, false⟩

end S3Service

/-! ### Multer upload configurations (src/src/routes/homepage.js and
src/unnamed/part_002) -/

namespace HomepageRoutes

/-- Image alternatives of the homepage regexes. -/
def imageTokens : List String := ["jpeg", "jpg", "png", "gif", "webp"]

/-- Video alternatives of the homepage regexes. -/
def videoTokens : List String := ["mp4", "mov", "avi", "wmv", "flv", "webm"]

/-- Alternatives of the universal-upload regex. -/
def mixedTokens : List String := imageTokens ++ videoTokens

/-- fileFilter of the imageUpload config: the image regex must match both
the lower-cased extname of the original name and the declared MIME type. -/
def imageFileFilter (f : MulterFile) : Bool :=
  jsRegexTestAny imageTokens (toLowerJS (extnameJS f.originalname))
    && jsRegexTestAny imageTokens f.mimetype

/-- fileFilter of the videoUpload config. -/
def videoFileFilter (f : MulterFile) : Bool :=
  jsRegexTestAny videoTokens (toLowerJS (extnameJS f.originalname))
    && jsRegexTestAny videoTokens f.mimetype

/-- fileFilter of the universalUpload config. -/
def universalFileFilter (f : MulterFile) : Bool :=
  jsRegexTestAny mixedTokens (toLowerJS (extnameJS f.originalname))
    && jsRegexTestAny mixedTokens f.mimetype

/-- imageUpload accepts a file: within the 50MB limit and past the filter. -/
def imageUploadAccepts (f : MulterFile) : Bool :=
  decide (f.size ≤ 50 * 1024 * 1024) && imageFileFilter f

/-- videoUpload accepts a file: within the 500MB limit and past the filter. -/
def videoUploadAccepts (f : MulterFile) : Bool :=
  decide (f.size ≤ 500 * 1024 * 1024) && videoFileFilter f

/-- universalUpload accepts a file: within the 500MB limit and past the
filter; this is the config every homepage media endpoint mounts. -/
def universalUploadAccepts (f : MulterFile) : Bool :=
  decide (f.size ≤ 500 * 1024 * 1024) && universalFileFilter f

/-- File-count cap of the bulk-upload endpoint array field. -/
def bulkUploadMaxFiles : ℕ := 10

end HomepageRoutes

namespace PortfolioRoutes

/-- The portfolio image config named upload: no fileSize limit (the line is
commented out in the source) and a filter on the MIME type only. -/
def imageUploadAccepts (f : MulterFile) : Bool :=
  startsWithJS f.mimetype "image/"

/-- The portfolio videoUpload config: 500MB limit, MIME type only. -/
def videoUploadAccepts (f : MulterFile) : Bool :=
  decide (f.size ≤ 500 * 1024 * 1024) && startsWithJS f.mimetype "video/"

/-- The portfolio mixedUpload config: 500MB limit, MIME type only. -/
def mixedUploadAccepts (f : MulterFile) : Bool :=
  decide (f.size ≤ 500 * 1024 * 1024)
    && (startsWithJS f.mimetype "image/" || startsWithJS f.mimetype "video/")

/-- File-count cap of the images array field of the create-project route. -/
def imagesMaxFiles : ℕ := 10

/-- File-count cap of the media array field of the with-media route. -/
def mediaMaxFiles : ℕ := 10

/-- File-count cap of the videos array field of the bulk-videos route. -/
def videosMaxFiles : ℕ := 10

end PortfolioRoutes

/-! ### PortfolioService delete operations
(src/src/services/videoCompressionService.js, concatenated portfolio
service, deleteProject and deleteProjectVideo) -/

namespace PortfolioService

/-- The slice of a project row the delete path reads. -/
structure Project where
  imagePublicId : Option String
  deriving DecidableEq

/-- Outcomes of the external calls deleteProject makes, in source order:
the getProjectById fetch, the cloudinary delete of the project image, and
the database delete of the row. -/
structure DeleteProjectEnv where
  fetchProject : Except String Project
  cloudinaryDelete : Except String Bool
  dbDelete : Except String Unit

/-- A settled delete operation: its result and whether the database delete
was executed and succeeded. -/
structure DeleteRun where
  result : Except String String
  dbDeleted : Bool

/-- Source PortfolioService.deleteProject: fetch the project, await the
cloudinary delete of its image when it has one, then delete the database
row; every rejection inside the try block aborts the remaining steps and is
rethrown with the wrapping message. -/
def deleteProject (env : DeleteProjectEnv) : DeleteRun :=
  match env.fetchProject with
  | .error e => ⟨.error ("Failed to delete project: " ++ e), false⟩
  | .ok proj =>
    let cloudinaryStep : Except String Unit :=
      match proj.imagePublicId with
      | some _ =>
        match env.cloudinaryDelete with
        | .ok _ => .ok ()
        | .error e => .error e
      | none => .ok ()
    match cloudinaryStep with
    | .error e => ⟨.error ("Failed to delete project: " ++ e), false⟩
    | .ok _ =>
      match env.dbDelete with
      | .error e => ⟨.error ("Failed to delete project: " ++ e), false⟩
      | .ok _ => ⟨.ok "Project deleted successfully", true⟩

/-- The slice of a project-video row the delete path reads. -/
structure VideoRow where
  videoPublicId : Option String
  deriving DecidableEq

/-- Outcomes of the external calls deleteProjectVideo makes, in source
order: the row fetch, the database delete, and the cloudinary delete. -/
structure DeleteVideoEnv where
  fetchVideo : Except String VideoRow
  dbDelete : Except String Unit
  cloudinaryDeleteVideo : Except String Bool

/-- Source PortfolioService.deleteProjectVideo: fetch the row, delete it
from the database, then await the cloudinary delete of the video when the
row has a public id; a cloudinary rejection is rethrown with the wrapping
message even though the database delete already happened. -/
def deleteProjectVideo (env : DeleteVideoEnv) : DeleteRun :=
  match env.fetchVideo with
  | .error e => ⟨.error ("Failed to delete project video: " ++ e), false⟩
  | .ok row =>
    match env.dbDelete with
    | .error e => ⟨.error ("Failed to delete project video: " ++ e), false⟩
    | .ok _ =>
      match row.videoPublicId with
      | some _ =>
        match env.cloudinaryDeleteVideo with
        | .ok _ => ⟨.ok "Video deleted successfully", true⟩
        | .error e => ⟨.error ("Failed to delete project video: " ++ e), true⟩
      | none => ⟨.ok "Video deleted successfully", true⟩

end PortfolioService

/-! ### Socket join-upload handler (src/unnamed/part_005, server file) -/

namespace UploadSocket

/-- Source join-upload handler: iterate the rooms of the socket, leaving
every room whose name starts with upload underscore; join the requested
room; emit room-joined with a ready status. Rooms form a set (the list
carries the room named by the socket id and every joined room); join is a
no-op on a room already held. The returned pair is the room list after the
handler and the list of emitted events, each an event name with the
uploadId it carries. -/
def joinUpload (rooms : List String) (uploadId : String) :
    List String × List (String × String) :=
  let remaining := rooms.filter (fun r => !(startsWithJS r "upload_"))
  let joined := if uploadId ∈ remaining then remaining else remaining ++ [uploadId]
  (joined, [("room-joined", uploadId)])

end UploadSocket

/-! ### HomepageService media classification (src/src/services/homepageService.js) -/

namespace HomepageService

/-- The video extension list of createHomepageElement and updateElementMedia. -/
def videoExtensions : List String := ["mp4", "mov", "avi", "wmv", "flv", "webm"]

/-- The file extension both methods compute: the original name split on
dots, its last segment, lower-cased. -/
def fileExtensionOf (originalname : String) : String :=
  toLowerJS (String.mk (lastSegment originalname.data))

/-- Which uploader a media file is routed to. -/
inductive MediaRoute where
  | video
  | image
  deriving DecidableEq

/-- Media classification inside createHomepageElement. -/
def createElementIsVideo (f : MulterFile) : Bool :=
  videoExtensions.contains (fileExtensionOf f.originalname)

/-- The uploader createHomepageElement calls for the media file. -/
def createElementRoute (f : MulterFile) : MediaRoute :=
  if createElementIsVideo f then MediaRoute.video else MediaRoute.image

/-- Media classification inside updateElementMedia, an identical inline
copy in the source. -/
def updateElementMediaIsVideo (f : MulterFile) : Bool :=
  videoExtensions.contains (fileExtensionOf f.originalname)

/-- The uploader updateElementMedia calls for the new media file. -/
def updateElementMediaRoute (f : MulterFile) : MediaRoute :=
  if updateElementMediaIsVideo f then MediaRoute.video else MediaRoute.image

end HomepageService

/-! ### Facts about the string primitives -/

theorem natToDecCharsAux_eq_digits (fuel n : ℕ) (h : n ≤ fuel) :
    natToDecCharsAux fuel n = ((Nat.digits 10 n).map Nat.digitChar).reverse := by
  induction fuel generalizing n with
  | zero =>
    interval_cases n
    simp [natToDecCharsAux]
  | succ fuel ih =>
    by_cases hn : n = 0
    · simp [natToDecCharsAux, hn]
    · have hpos : 0 < n := Nat.pos_of_ne_zero hn
      have hlt : n / 10 < n := Nat.div_lt_self hpos (by norm_num)
      have hle : n / 10 ≤ fuel := by omega
      rw [natToDecCharsAux, if_neg hn, ih _ hle,
        Nat.digits_def' (by norm_num : 1 < 10) hpos]
      simp

theorem digitChar_injOn (a b : ℕ) (ha : a < 10) (hb : b < 10)
    (h : Nat.digitChar a = Nat.digitChar b) : a = b := by
  interval_cases a <;> interval_cases b <;> simp_all [Nat.digitChar]

theorem map_digitChar_inj (l₁ l₂ : List ℕ) (h₁ : ∀ d ∈ l₁, d < 10)
    (h₂ : ∀ d ∈ l₂, d < 10)
    (h : l₁.map Nat.digitChar = l₂.map Nat.digitChar) : l₁ = l₂ := by
  induction l₁ generalizing l₂ with
  | nil => cases l₂ <;> simp_all
  | cons a t ih =>
    cases l₂ with
    | nil => simp_all
    | cons b t₂ =>
      simp only [List.map_cons, List.cons.injEq] at h
      have ha : a = b := digitChar_injOn a b (h₁ a (by simp)) (h₂ b (by simp)) h.1
      have ht : t = t₂ := ih t₂ (fun d hd => h₁ d (List.mem_cons_of_mem a hd))
        (fun d hd => h₂ d (List.mem_cons_of_mem b hd)) h.2
      rw [ha, ht]

theorem natToDecChars_injective (n m : ℕ) (h : natToDecChars n = natToDecChars m) :
    n = m := by
  unfold natToDecChars at h
  by_cases hn : n = 0 <;> by_cases hm : m = 0
  · omega
  · rw [if_pos hn, if_neg hm, natToDecCharsAux_eq_digits m m le_rfl] at h
    have hd : Nat.digits 10 m = [0] := by
      have := map_digitChar_inj [0] (Nat.digits 10 m).reverse (by simp)
        (fun d hd => Nat.digits_lt_base (by norm_num) (List.mem_reverse.mp hd))
        (by simpa using h)
      simpa using congrArg List.reverse this.symm
    have := congrArg (Nat.ofDigits 10) hd
    rw [Nat.ofDigits_digits] at this
    simp [Nat.ofDigits] at this
    omega
  · rw [if_neg hn, if_pos hm, natToDecCharsAux_eq_digits n n le_rfl] at h
    have hd : Nat.digits 10 n = [0] := by
      have := map_digitChar_inj (Nat.digits 10 n).reverse [0]
        (fun d hd => Nat.digits_lt_base (by norm_num) (List.mem_reverse.mp hd))
        (by simp) (by simpa using h)
      simpa using congrArg List.reverse this
    have := congrArg (Nat.ofDigits 10) hd
    rw [Nat.ofDigits_digits] at this
    simp [Nat.ofDigits] at this
    omega
  · rw [if_neg hn, if_neg hm, natToDecCharsAux_eq_digits n n le_rfl,
      natToDecCharsAux_eq_digits m m le_rfl] at h
    have hrev := congrArg List.reverse h
    simp only [List.reverse_reverse] at hrev
    have hdig := map_digitChar_inj (Nat.digits 10 n) (Nat.digits 10 m)
      (fun d hd => Nat.digits_lt_base (by norm_num) hd)
      (fun d hd => Nat.digits_lt_base (by norm_num) hd) hrev
    have := congrArg (Nat.ofDigits 10) hdig
    rwa [Nat.ofDigits_digits, Nat.ofDigits_digits] at this

theorem jsSplitDot_ne_nil (cs : List Char) : jsSplitDot cs ≠ [] := by
  cases cs with
  | nil => simp [jsSplitDot]
  | cons c rest =>
    unfold jsSplitDot
    by_cases hc : c = '.'
    · simp [hc]
    · rw [if_neg hc]
      cases jsSplitDot rest <;> simp

theorem jsSplitDot_no_dot (cs : List Char) (h : '.' ∉ cs) : jsSplitDot cs = [cs] := by
  induction cs with
  | nil => simp [jsSplitDot]
  | cons c rest ih =>
    have hc : c ≠ '.' := by intro hc; exact h (by simp [hc])
    have hr : '.' ∉ rest := by intro hr; exact h (by simp [hr])
    unfold jsSplitDot
    rw [if_neg hc, ih hr]

theorem jsSplitDot_two_le (cs : List Char) (h : '.' ∈ cs) :
    2 ≤ (jsSplitDot cs).length := by
  induction cs with
  | nil => simp at h
  | cons c rest ih =>
    unfold jsSplitDot
    by_cases hc : c = '.'
    · rw [if_pos hc]
      have := jsSplitDot_ne_nil rest
      have : 1 ≤ (jsSplitDot rest).length := by
        cases hcs : jsSplitDot rest with
        | nil => exact absurd hcs this
        | cons a t => simp
      simp only [List.length_cons]
      omega
    · rw [if_neg hc]
      have hr : '.' ∈ rest := by
        rcases List.mem_cons.mp h with h1 | h1
        · exact absurd h1.symm hc
        · exact h1
      have h2 := ih hr
      cases hcs : jsSplitDot rest with
      | nil => exact absurd hcs (jsSplitDot_ne_nil rest)
      | cons a t => rw [hcs] at h2; simpa using h2

theorem takeWhile_append_mem (l l₂ : List Char) (h : '.' ∈ l) :
    ((l ++ l₂).takeWhile (fun c => c ≠ '.')) = l.takeWhile (fun c => c ≠ '.') := by
  induction l with
  | nil => simp at h
  | cons a t ih =>
    by_cases ha : a = '.'
    · simp [List.takeWhile, ha]
    · have ht : '.' ∈ t := by
        rcases List.mem_cons.mp h with h1 | h1
        · exact absurd h1.symm ha
        · exact h1
      rw [List.cons_append]
      simp only [List.takeWhile]
      rw [show (decide (a ≠ '.')) = true by simp [ha]]
      simp only []
      rw [ih ht]

theorem takeWhile_append_stop (l : List Char) :
    ((l ++ ['.']).takeWhile (fun c => c ≠ '.')) = l.takeWhile (fun c => c ≠ '.') := by
  induction l with
  | nil => simp [List.takeWhile]
  | cons a t ih =>
    by_cases ha : a = '.'
    · simp [List.takeWhile, ha]
    · rw [List.cons_append]
      simp only [List.takeWhile]
      rw [show (decide (a ≠ '.')) = true by simp [ha]]
      simp only []
      rw [ih]

theorem takeWhile_all (l : List Char) (h : '.' ∉ l) :
    l.takeWhile (fun c => c ≠ '.') = l := by
  induction l with
  | nil => simp
  | cons a t ih =>
    have ha : a ≠ '.' := by intro ha; exact h (by simp [ha])
    have ht : '.' ∉ t := by intro ht; exact h (by simp [ht])
    simp only [List.takeWhile]
    rw [show (decide (a ≠ '.')) = true by simp [ha], ih ht]

theorem getLastD_cons_ne {α : Type} (a : α) (t : List α) (d : α) (ht : t ≠ []) :
    (a :: t).getLastD d = t.getLastD d := by
  cases t with
  | nil => exact absurd rfl ht
  | cons b t₂ => simp [List.getLastD_cons]

theorem jsSplitDot_cons_dot (rest : List Char) :
    jsSplitDot ('.' :: rest) = [] :: jsSplitDot rest := rfl

theorem lastSegment_cons_dot (rest : List Char) :
    lastSegment ('.' :: rest) = lastSegment rest := by
  unfold lastSegment
  rw [jsSplitDot_cons_dot]
  exact getLastD_cons_ne _ _ _ (jsSplitDot_ne_nil rest)

theorem lastSegment_cons_ne (c : Char) (rest : List Char) (hc : c ≠ '.')
    (hr : '.' ∈ rest) : lastSegment (c :: rest) = lastSegment rest := by
  unfold lastSegment
  obtain ⟨a, t, hcs⟩ : ∃ a t, jsSplitDot rest = a :: t := by
    cases hcs : jsSplitDot rest with
    | nil => exact absurd hcs (jsSplitDot_ne_nil rest)
    | cons a t => exact ⟨a, t, rfl⟩
  have ht : t ≠ [] := by
    have h2 := jsSplitDot_two_le rest hr
    rw [hcs] at h2
    cases t with
    | nil => simp at h2
    | cons b t₂ => simp
  have hsplit : jsSplitDot (c :: rest) = (c :: a) :: t := by
    have step : jsSplitDot (c :: rest)
        = if c = '.' then [] :: jsSplitDot rest
          else
            match jsSplitDot rest with
            | [] => [[c]]
            | h :: t => (c :: h) :: t := rfl
    rw [step, if_neg hc, hcs]
  rw [hsplit, hcs, getLastD_cons_ne _ _ _ ht, getLastD_cons_ne _ _ _ ht]

theorem afterLastDot_cons_dot (rest : List Char) :
    afterLastDot ('.' :: rest) = afterLastDot rest := by
  unfold afterLastDot
  rw [if_pos (show '.' ∈ '.' :: rest by simp)]
  rw [show ('.' :: rest).reverse = rest.reverse ++ ['.'] by simp]
  rw [takeWhile_append_stop]
  by_cases hr : '.' ∈ rest
  · rw [if_pos hr]
  · rw [if_neg hr, takeWhile_all rest.reverse (by simpa using hr)]
    simp

theorem afterLastDot_cons_ne (c : Char) (rest : List Char) (hc : c ≠ '.')
    (hr : '.' ∈ rest) : afterLastDot (c :: rest) = afterLastDot rest := by
  unfold afterLastDot
  rw [if_pos (show '.' ∈ c :: rest by simp [hr]), if_pos hr]
  rw [show (c :: rest).reverse = rest.reverse ++ [c] by simp]
  rw [takeWhile_append_mem rest.reverse [c] (by simpa using hr)]

theorem lastSegment_eq_afterLastDot (cs : List Char) :
    lastSegment cs = afterLastDot cs := by
  induction cs with
  | nil => simp [lastSegment, jsSplitDot, afterLastDot]
  | cons c rest ih =>
    by_cases hc : c = '.'
    · subst hc
      rw [lastSegment_cons_dot rest, ih, afterLastDot_cons_dot rest]
    · by_cases hr : '.' ∈ rest
      · rw [lastSegment_cons_ne c rest hc hr, ih, afterLastDot_cons_ne c rest hc hr]
      · have hmem : '.' ∉ c :: rest := by
          intro hm
          rcases List.mem_cons.mp hm with h1 | h1
          · exact hc h1.symm
          · exact hr h1
        unfold lastSegment afterLastDot
        rw [jsSplitDot_no_dot (c :: rest) hmem, if_neg hmem]
        simp

theorem jsToFixed_close (d : ℕ) (x : ℚ) :
    |jsToFixed d x - x| ≤ 1 / (2 * (10 : ℚ) ^ d) := by
  have hpow : (0 : ℚ) < (10 : ℚ) ^ d := by positivity
  have h1 := Int.lt_floor_add_one (x * (10 : ℚ) ^ d + 1 / 2)
  have h2 := Int.floor_le (x * (10 : ℚ) ^ d + 1 / 2)
  have key : |((⌊x * (10 : ℚ) ^ d + 1 / 2⌋ : ℤ) : ℚ) - x * (10 : ℚ) ^ d| ≤ 1 / 2 := by
    rw [abs_le]
    constructor <;> linarith
  unfold jsToFixed
  rw [show ((⌊x * (10 : ℚ) ^ d + 1 / 2⌋ : ℤ) : ℚ) / (10 : ℚ) ^ d - x
      = (((⌊x * (10 : ℚ) ^ d + 1 / 2⌋ : ℤ) : ℚ) - x * (10 : ℚ) ^ d) / (10 : ℚ) ^ d by
    field_simp
    ring]
  rw [abs_div, abs_of_pos hpow, div_le_div_iff hpow (by positivity)]
  nlinarith [key, hpow]

/-! ### Helper lemmas about the compression model -/

theorem mem_cleanup_not (fs ps : List String) (p : String) (hp : p ∈ ps) :
    p ∉ VideoCompressionService.cleanupTempFiles fs ps := by
  unfold VideoCompressionService.cleanupTempFiles
  intro hmem
  have h2 := (List.mem_filter.mp hmem).2
  exact (of_decide_eq_true h2) hp

theorem tempPath_inj_aux (pre suf : List Char) (a b : ℕ)
    (h : String.mk (pre ++ (natToDecChars a ++ suf))
        = String.mk (pre ++ (natToDecChars b ++ suf))) : a = b := by
  have hdata : pre ++ (natToDecChars a ++ suf) = pre ++ (natToDecChars b ++ suf) := by
    injection h
  exact natToDecChars_injective a b
    (List.append_cancel_right (List.append_cancel_left hdata))

/-! ### Further helper lemmas -/

theorem shouldCompress_iff (b : Buffer) (t : ℚ) :
    VideoCompressionService.shouldCompress b t = true
      ↔ (b.length : ℚ) > t * (1024 * 1024) := by
  unfold VideoCompressionService.shouldCompress
  rw [decide_eq_true_iff, gt_iff_lt, lt_div_iff (by norm_num : (0 : ℚ) < 1024 * 1024),
    gt_iff_lt]

theorem shouldCompress_false_of_le (b : Buffer)
    (h : (b.length : ℚ) ≤ 50 * (1024 * 1024)) :
    VideoCompressionService.shouldCompress b 50 = false := by
  unfold VideoCompressionService.shouldCompress
  rw [decide_eq_false_iff_not]
  rw [not_lt, div_le_iff (by norm_num : (0 : ℚ) < 1024 * 1024)]
  linarith

/-! ### Claim theorems -/

/-- Claim C1: for every video buffer upload in which the compression step
rejects with an error, the storage uploader uploadVideo (both the
cloudinary one and the s3 one) catches the error, uploads the original
uncompressed buffer instead, and the overall upload resolves successfully;
no compression error propagates to the HTTP caller. -/
theorem claim_C1_compression_failure_fallback
    (cenv : CloudinaryService.UploadEnv) (senv : S3Service.UploadEnv)
    (f g : UploadFile) (b b₂ : Buffer) (e e₂ : String)
    (r : CloudinaryService.UploadResponse) (loc : String)
    (hfb : f.buffer = some b)
    (hce : cenv.compressOutcome = .error e)
    (hcs : cenv.storeOutcome b = .ok r)
    (hgb : g.buffer = some b₂)
    (hse : senv.compressOutcome = .error e₂)
    (hss : senv.storeOutcome b₂ = .ok loc) :
    (CloudinaryService.uploadVideo cenv f).result
        = .ok (CloudinaryService.mkUploadedVideo r)
    ∧ (CloudinaryService.uploadVideo cenv f).uploadedBuffer = some b
    ∧ (S3Service.uploadVideo senv g).result
        = .ok ⟨senv.folder ++ "/" ++ senv.uuid ++ "." ++ S3Service.keyExtension g.originalname,
            loc, S3Service.keyExtension g.originalname, b₂.length,
            S3Service.s3Url senv.bucketName
              (senv.folder ++ "/" ++ senv.uuid ++ "." ++ S3Service.keyExtension g.originalname)⟩
    ∧ (S3Service.uploadVideo senv g).uploadedBuffer = some b₂ := by
  refine ⟨?_, ?_, ?_, ?_⟩ <;>
    cases hsc : VideoCompressionService.shouldCompress b 50 <;>
    cases hsc₂ : VideoCompressionService.shouldCompress b₂ 50 <;>
    simp [CloudinaryService.uploadVideo, S3Service.uploadVideo,
      hfb, hce, hcs, hgb, hse, hss, hsc, hsc₂]

/-- Witness for C1 at a concrete environment in which compression rejects
and the store succeeds. -/
theorem claim_C1_witness :
    (CloudinaryService.uploadVideo
        ⟨.error "boom", fun _ => .ok ⟨"pid", "https://cdn/u", 1, 0⟩,
          .ok ⟨"pid", "https://cdn/u", 1, 0⟩⟩
        ⟨"a.mp4", "video/mp4", some [1]⟩).result
      = .ok (CloudinaryService.mkUploadedVideo ⟨"pid", "https://cdn/u", 1, 0⟩)
    ∧ (CloudinaryService.uploadVideo
        ⟨.error "boom", fun _ => .ok ⟨"pid", "https://cdn/u", 1, 0⟩,
          .ok ⟨"pid", "https://cdn/u", 1, 0⟩⟩
        ⟨"a.mp4", "video/mp4", some [1]⟩).uploadedBuffer = some [1]
    ∧ (S3Service.uploadVideo
        ⟨.error "boom", fun _ => .ok "https://bkt/u", "u1", "bkt", "photography-portfolio", []⟩
        ⟨"b.mp4", "video/mp4", some [2]⟩).result
      = .ok ⟨"photography-portfolio" ++ "/" ++ "u1" ++ "." ++ S3Service.keyExtension "b.mp4",
          "https://bkt/u", S3Service.keyExtension "b.mp4", ([2] : Buffer).length,
          S3Service.s3Url "bkt"
            ("photography-portfolio" ++ "/" ++ "u1" ++ "." ++ S3Service.keyExtension "b.mp4")⟩
    ∧ (S3Service.uploadVideo
        ⟨.error "boom", fun _ => .ok "https://bkt/u", "u1", "bkt", "photography-portfolio", []⟩
        ⟨"b.mp4", "video/mp4", some [2]⟩).uploadedBuffer = some [2] :=
  claim_C1_compression_failure_fallback _ _ _ _ _ _ _ _ _ _ rfl rfl rfl rfl rfl rfl

/-- Claim C2: shouldCompress is true exactly when the byte length exceeds
the MB threshold scaled to bytes; consequently a video buffer at or below
the 50MB threshold the cloudinary uploader passes never reaches the
compression engine and is handed to the store unchanged. -/
theorem claim_C2_threshold_decision :
    (∀ (b : Buffer) (t : ℚ),
        VideoCompressionService.shouldCompress b t = true
          ↔ (b.length : ℚ) > t * (1024 * 1024))
    ∧ (∀ (env : CloudinaryService.UploadEnv) (f : UploadFile) (b : Buffer),
        f.buffer = some b → (b.length : ℚ) ≤ 50 * (1024 * 1024) →
        (CloudinaryService.uploadVideo env f).compressionInvoked = false
        ∧ (CloudinaryService.uploadVideo env f).uploadedBuffer = some b) := by
  refine ⟨shouldCompress_iff, ?_⟩
  intro env f b hfb hle
  have hsc := shouldCompress_false_of_le b hle
  refine ⟨?_, ?_⟩ <;>
    cases hst : env.storeOutcome b <;>
    simp [CloudinaryService.uploadVideo, hfb, hsc, hst]

/-- Witness for C2 at a small concrete buffer below the threshold. -/
theorem claim_C2_witness :
    (CloudinaryService.uploadVideo
        ⟨.error "unused", fun _ => .error "store down", .error "store down"⟩
        ⟨"c.mp4", "video/mp4", some [9]⟩).compressionInvoked = false
    ∧ (CloudinaryService.uploadVideo
        ⟨.error "unused", fun _ => .error "store down", .error "store down"⟩
        ⟨"c.mp4", "video/mp4", some [9]⟩).uploadedBuffer = some [9] :=
  claim_C2_threshold_decision.2 _ _ [9] rfl (by norm_num)

/-- Claim C3 counterexample: the quality-tier mapping is not total in the
claimed sense. The tier value constructor is none of low, medium or high,
yet the bracket lookups find the truthy Object.prototype member inherited
under that key, so the or-fallback is skipped and neither getPreset nor
getCRF yields the medium row for it. -/
theorem claim_C3_counterexample :
    ("constructor" : String) ≠ "low"
    ∧ ("constructor" : String) ≠ "medium"
    ∧ ("constructor" : String) ≠ "high"
    ∧ VideoCompressionService.getPreset "constructor"
        = VideoCompressionService.PresetValue.inherited "constructor"
    ∧ VideoCompressionService.getPreset "constructor"
        ≠ VideoCompressionService.getPreset "medium"
    ∧ VideoCompressionService.getCRF "constructor"
        = VideoCompressionService.CrfValue.inherited "constructor"
    ∧ VideoCompressionService.getCRF "constructor"
        ≠ VideoCompressionService.getCRF "medium" := by
  refine ⟨by decide, by decide, by decide, by decide, by decide, by decide, by decide⟩

/-- Claim C3 amended: getPreset and getCRF form the claimed table on the
three own keys: low gives CRF 28 with the fastest preset (ultrafast),
medium gives CRF 23 with the fast preset, high gives CRF 18 with the
balanced medium preset. A tier value that is none of the three falls back
to exactly the medium row only when it is also not the name of an
Object.prototype member; for the inherited property names the lookups
return the truthy inherited member instead of the medium row. -/
theorem claim_C3_amended :
    VideoCompressionService.getPreset "low" = VideoCompressionService.PresetValue.str "ultrafast"
    ∧ VideoCompressionService.getCRF "low" = VideoCompressionService.CrfValue.num 28
    ∧ VideoCompressionService.getPreset "medium" = VideoCompressionService.PresetValue.str "fast"
    ∧ VideoCompressionService.getCRF "medium" = VideoCompressionService.CrfValue.num 23
    ∧ VideoCompressionService.getPreset "high" = VideoCompressionService.PresetValue.str "medium"
    ∧ VideoCompressionService.getCRF "high" = VideoCompressionService.CrfValue.num 18
    ∧ (∀ q : String, q ≠ "low" → q ≠ "medium" → q ≠ "high" →
        q ∉ VideoCompressionService.objectProtoKeys →
        VideoCompressionService.getPreset q = VideoCompressionService.getPreset "medium"
        ∧ VideoCompressionService.getCRF q = VideoCompressionService.getCRF "medium")
    ∧ (∀ q : String, q ∈ VideoCompressionService.objectProtoKeys →
        VideoCompressionService.getPreset q = VideoCompressionService.PresetValue.inherited q
        ∧ VideoCompressionService.getCRF q = VideoCompressionService.CrfValue.inherited q) := by
  refine ⟨rfl, rfl, rfl, rfl, rfl, rfl, ?_, ?_⟩
  · intro q h₁ h₂ h₃ h₄
    constructor <;> simp [VideoCompressionService.getPreset,
      VideoCompressionService.getCRF, h₁, h₂, h₃, h₄]
  · intro q hq
    fin_cases hq <;> exact ⟨by decide, by decide⟩

/-- Witness for the amended C3 at the concrete unknown tier ultra and the
concrete inherited property name toString. -/
theorem claim_C3_amended_witness :
    (VideoCompressionService.getPreset "ultra" = VideoCompressionService.getPreset "medium"
      ∧ VideoCompressionService.getCRF "ultra" = VideoCompressionService.getCRF "medium")
    ∧ (VideoCompressionService.getPreset "toString"
          = VideoCompressionService.PresetValue.inherited "toString"
      ∧ VideoCompressionService.getCRF "toString"
          = VideoCompressionService.CrfValue.inherited "toString") :=
  ⟨claim_C3_amended.2.2.2.2.2.2.1 "ultra" (by decide) (by decide) (by decide) (by decide),
    claim_C3_amended.2.2.2.2.2.2.2 "toString" (by decide)⟩

/-- Claim C4 counterexample: the compressionRatio of the resolved result is
false as claimed. On a successful run with original size 3 bytes and
compressed size 1 byte the field holds 66.7 (the percentage rounded by
toFixed 1), which equals neither the raw ratio two thirds nor the exact
percentage two hundred thirds. -/
theorem claim_C4_counterexample :
    ((VideoCompressionService.compressVideoBuffer [] 0 0 [0, 0, 0]
        VideoCompressionService.FfmpegOutcome.ended (.ok [0])).result.map
      (fun r => r.compressionRatio))
      = Except.ok (VideoCompressionService.compressionRatioReported 3 1)
    ∧ VideoCompressionService.compressionRatioReported 3 1 = 667 / 10
    ∧ (667 / 10 : ℚ) ≠ ((3 : ℚ) - 1) / 3
    ∧ (667 / 10 : ℚ) ≠ ((3 : ℚ) - 1) / 3 * 100 := by
  refine ⟨rfl, ?_, by norm_num, by norm_num⟩
  unfold VideoCompressionService.compressionRatioReported jsToFixed
  have h1 : (((3 : ℕ) : ℚ) - ((1 : ℕ) : ℚ)) / ((3 : ℕ) : ℚ) * 100 * (10 : ℚ) ^ (1 : ℕ)
      + 1 / 2 = 4003 / 6 := by
    push_cast
    ring
  rw [h1, show ⌊(4003 : ℚ) / 6⌋ = 667 by norm_num [Int.floor_eq_iff]]
  norm_num

/-- Claim C4 amended: for every successful compression with original size o
bytes and compressed size c bytes, the compressionRatio field carries the
percentage 100 times (o minus c) over o, rounded to one decimal place with
halves up (the toFixed 1 rounding); it equals the floor-form rounded value
and lies within one twentieth of a percentage point of the exact
percentage. -/
theorem claim_C4_amended (o c : ℕ) :
    VideoCompressionService.compressionRatioReported o c
      = ((⌊((o : ℚ) - (c : ℚ)) / (o : ℚ) * 1000 + 1 / 2⌋ : ℤ) : ℚ) / 10
    ∧ |VideoCompressionService.compressionRatioReported o c
        - ((o : ℚ) - (c : ℚ)) / (o : ℚ) * 100| ≤ 1 / 20 := by
  constructor
  · unfold VideoCompressionService.compressionRatioReported jsToFixed
    rw [show ((o : ℚ) - (c : ℚ)) / (o : ℚ) * 100 * (10 : ℚ) ^ (1 : ℕ)
        = ((o : ℚ) - (c : ℚ)) / (o : ℚ) * 1000 by ring]
    norm_num
  · have h := jsToFixed_close 1 (((o : ℚ) - (c : ℚ)) / (o : ℚ) * 100)
    unfold VideoCompressionService.compressionRatioReported
    have : (1 : ℚ) / (2 * (10 : ℚ) ^ (1 : ℕ)) = 1 / 20 := by norm_num
    rw [this] at h
    exact h

/-- Claim C5: after every settle of compressVideoBuffer, with the promise
resolving, rejecting on a failed read of the output, or rejecting on a
transcoder error, neither the generated input temp path nor the generated
output temp path is still present: temp files are never leaked. -/
theorem claim_C5_temp_cleanup (fs0 : List String) (nowIn nowOut : ℕ)
    (buffer : Buffer) (ff : VideoCompressionService.FfmpegOutcome)
    (readOutcome : Except String Buffer) :
    VideoCompressionService.tempInputPath nowIn ∉
      (VideoCompressionService.compressVideoBuffer fs0 nowIn nowOut buffer ff readOutcome).fs
    ∧ VideoCompressionService.tempOutputPath nowOut ∉
      (VideoCompressionService.compressVideoBuffer fs0 nowIn nowOut buffer ff readOutcome).fs := by
  cases ff with
  | ended =>
    cases readOutcome with
    | ok c =>
      exact ⟨mem_cleanup_not _ _ _ (by simp), mem_cleanup_not _ _ _ (by simp)⟩
    | error m =>
      exact ⟨mem_cleanup_not _ _ _ (by simp), mem_cleanup_not _ _ _ (by simp)⟩
  | errored m outputWritten =>
    exact ⟨mem_cleanup_not _ _ _ (by simp), mem_cleanup_not _ _ _ (by simp)⟩

/-- Claim C6 counterexample: two distinct invocations of compressVideoBuffer
that observe the same Date.now() millisecond value generate identical input
temp paths and identical output temp paths; the names carry no random
component, only the timestamp, so same-millisecond concurrent invocations
collide. -/
theorem claim_C6_counterexample :
    (⟨0, 1000, 1000⟩ : VideoCompressionService.Invocation) ≠ ⟨1, 1000, 1000⟩
    ∧ VideoCompressionService.invInputPath ⟨0, 1000, 1000⟩
        = VideoCompressionService.invInputPath ⟨1, 1000, 1000⟩
    ∧ VideoCompressionService.invOutputPath ⟨0, 1000, 1000⟩
        = VideoCompressionService.invOutputPath ⟨1, 1000, 1000⟩ :=
  ⟨by decide, rfl, rfl⟩

/-- Claim C6 amended: two invocations of compressVideoBuffer generate
distinct input temp paths and distinct output temp paths whenever the
Date.now() millisecond values they observe differ; uniqueness of the names
holds exactly up to the millisecond timestamps, not per invocation. -/
theorem claim_C6_amended (i j : VideoCompressionService.Invocation)
    (hin : i.nowIn ≠ j.nowIn) (hout : i.nowOut ≠ j.nowOut) :
    VideoCompressionService.invInputPath i ≠ VideoCompressionService.invInputPath j
    ∧ VideoCompressionService.invOutputPath i ≠ VideoCompressionService.invOutputPath j := by
  constructor
  · intro h
    exact hin (tempPath_inj_aux _ _ _ _ h)
  · intro h
    exact hout (tempPath_inj_aux _ _ _ _ h)

/-- Witness for the amended C6 at two invocations with distinct timestamps. -/
theorem claim_C6_amended_witness :
    ((⟨0, 1, 3⟩ : VideoCompressionService.Invocation).nowIn ≠
        (⟨1, 2, 4⟩ : VideoCompressionService.Invocation).nowIn)
    ∧ (VideoCompressionService.invInputPath ⟨0, 1, 3⟩
          ≠ VideoCompressionService.invInputPath ⟨1, 2, 4⟩
        ∧ VideoCompressionService.invOutputPath ⟨0, 1, 3⟩
          ≠ VideoCompressionService.invOutputPath ⟨1, 2, 4⟩) :=
  ⟨by decide, claim_C6_amended ⟨0, 1, 3⟩ ⟨1, 2, 4⟩ (by decide) (by decide)⟩

theorem joinUpload_fst (rooms : List String) (uploadId : String) :
    (UploadSocket.joinUpload rooms uploadId).1
      = if uploadId ∈ rooms.filter (fun r => !(startsWithJS r "upload_"))
        then rooms.filter (fun r => !(startsWithJS r "upload_"))
        else rooms.filter (fun r => !(startsWithJS r "upload_")) ++ [uploadId] := rfl

theorem joinUpload_snd (rooms : List String) (uploadId : String) :
    (UploadSocket.joinUpload rooms uploadId).2 = [("room-joined", uploadId)] := rfl

/-- Claim C7 counterexample: the claim that every upload endpoint enforces
the 50MB image limit and matches both extension and MIME type against the
endpoint class fails on the portfolio image config: it accepts a 60MB file
whose name carries a txt extension matching no image token, because that
config checks only the MIME type and carries no fileSize limit. -/
theorem claim_C7_counterexample :
    PortfolioRoutes.imageUploadAccepts ⟨"malware.txt", "image/png", 60 * 1024 * 1024⟩ = true
    ∧ jsRegexTestAny HomepageRoutes.imageTokens (toLowerJS (extnameJS "malware.txt")) = false
    ∧ (60 * 1024 * 1024 : ℕ) > 50 * 1024 * 1024 := by
  refine ⟨by decide, by decide, by norm_num⟩

/-- Claim C7 amended: the homepage multer configs enforce both the
extension and the MIME-type check (as unanchored substring matches of the
class tokens) together with the 50MB image and 500MB video or universal
limits, and the bulk endpoint caps at 10 files; the portfolio configs check
only the declared MIME-type class, apply the 500MB limit to the video and
mixed configs and a 10-file cap to the array fields, and the portfolio
image config has no size limit at all. -/
theorem claim_C7_amended :
    (∀ f : MulterFile, HomepageRoutes.universalUploadAccepts f = true ↔
        f.size ≤ 500 * 1024 * 1024
        ∧ (∃ t ∈ HomepageRoutes.mixedTokens,
            t.data <:+: (toLowerJS (extnameJS f.originalname)).data)
        ∧ (∃ t ∈ HomepageRoutes.mixedTokens, t.data <:+: f.mimetype.data))
    ∧ (∀ f : MulterFile, HomepageRoutes.imageUploadAccepts f = true ↔
        f.size ≤ 50 * 1024 * 1024
        ∧ (∃ t ∈ HomepageRoutes.imageTokens,
            t.data <:+: (toLowerJS (extnameJS f.originalname)).data)
        ∧ (∃ t ∈ HomepageRoutes.imageTokens, t.data <:+: f.mimetype.data))
    ∧ (∀ f : MulterFile, HomepageRoutes.videoUploadAccepts f = true ↔
        f.size ≤ 500 * 1024 * 1024
        ∧ (∃ t ∈ HomepageRoutes.videoTokens,
            t.data <:+: (toLowerJS (extnameJS f.originalname)).data)
        ∧ (∃ t ∈ HomepageRoutes.videoTokens, t.data <:+: f.mimetype.data))
    ∧ (∀ f : MulterFile, PortfolioRoutes.imageUploadAccepts f = true ↔
        "image/".data <+: f.mimetype.data)
    ∧ (∀ n : ℕ, PortfolioRoutes.imageUploadAccepts ⟨"huge.png", "image/png", n⟩ = true)
    ∧ (∀ f : MulterFile, PortfolioRoutes.videoUploadAccepts f = true ↔
        f.size ≤ 500 * 1024 * 1024 ∧ "video/".data <+: f.mimetype.data)
    ∧ (∀ f : MulterFile, PortfolioRoutes.mixedUploadAccepts f = true ↔
        f.size ≤ 500 * 1024 * 1024
        ∧ ("image/".data <+: f.mimetype.data ∨ "video/".data <+: f.mimetype.data))
    ∧ HomepageRoutes.bulkUploadMaxFiles = 10
    ∧ PortfolioRoutes.imagesMaxFiles = 10
    ∧ PortfolioRoutes.mediaMaxFiles = 10
    ∧ PortfolioRoutes.videosMaxFiles = 10 := by
  refine ⟨?_, ?_, ?_, ?_, ?_, ?_, ?_, rfl, rfl, rfl, rfl⟩
  · intro f
    simp [HomepageRoutes.universalUploadAccepts, HomepageRoutes.universalFileFilter,
      jsRegexTestAny, List.any_eq_true, Bool.and_eq_true, decide_eq_true_eq, and_assoc]
  · intro f
    simp [HomepageRoutes.imageUploadAccepts, HomepageRoutes.imageFileFilter,
      jsRegexTestAny, List.any_eq_true, Bool.and_eq_true, decide_eq_true_eq, and_assoc]
  · intro f
    simp [HomepageRoutes.videoUploadAccepts, HomepageRoutes.videoFileFilter,
      jsRegexTestAny, List.any_eq_true, Bool.and_eq_true, decide_eq_true_eq, and_assoc]
  · intro f
    simp [PortfolioRoutes.imageUploadAccepts, startsWithJS, List.isPrefixOf_iff_prefix]
  · intro n
    rfl
  · intro f
    simp [PortfolioRoutes.videoUploadAccepts, startsWithJS, List.isPrefixOf_iff_prefix,
      Bool.and_eq_true, decide_eq_true_eq]
  · intro f
    simp [PortfolioRoutes.mixedUploadAccepts, startsWithJS, List.isPrefixOf_iff_prefix,
      Bool.and_eq_true, Bool.or_eq_true, decide_eq_true_eq]

/-- Claim C8 counterexample: the claim that a failing remote delete never
prevents the owning record from being deleted fails on deleteProject: with
a project that has an image public id and a rejecting cloudinary delete,
the database delete is never executed and the operation rejects. -/
theorem claim_C8_counterexample :
    (PortfolioService.deleteProject
        ⟨.ok ⟨some "pid"⟩, .error "network failure", .ok ()⟩).dbDeleted = false
    ∧ (PortfolioService.deleteProject
        ⟨.ok ⟨some "pid"⟩, .error "network failure", .ok ()⟩).result
      = .error ("Failed to delete project: " ++ "network failure") :=
  ⟨rfl, rfl⟩

/-- Claim C8 amended: in deleteProjectVideo the database delete precedes
the remote delete, so once the fetch and the database delete succeed the
row is gone regardless of the storage outcome (though a storage rejection
still surfaces as an error, it is not merely logged); in deleteProject the
remote delete precedes the database delete, and its rejection aborts the
operation with the row still present. -/
theorem claim_C8_amended :
    (∀ (env : PortfolioService.DeleteProjectEnv) (pid e : String),
        env.fetchProject = .ok ⟨some pid⟩ → env.cloudinaryDelete = .error e →
        (PortfolioService.deleteProject env).dbDeleted = false
        ∧ (PortfolioService.deleteProject env).result
            = .error ("Failed to delete project: " ++ e))
    ∧ (∀ (env : PortfolioService.DeleteVideoEnv) (row : PortfolioService.VideoRow),
        env.fetchVideo = .ok row → env.dbDelete = .ok () →
        (PortfolioService.deleteProjectVideo env).dbDeleted = true) := by
  constructor
  · intro env pid e h₁ h₂
    constructor <;> simp [PortfolioService.deleteProject, h₁, h₂]
  · intro env row h₁ h₂
    cases hrow : row.videoPublicId with
    | none => simp [PortfolioService.deleteProjectVideo, h₁, h₂, hrow]
    | some pid =>
      cases hcd : env.cloudinaryDeleteVideo <;>
        simp [PortfolioService.deleteProjectVideo, h₁, h₂, hrow, hcd]

/-- Witness for the amended C8 at concrete environments: a rejecting
remote delete in deleteProject, and a rejecting remote delete after a
successful database delete in deleteProjectVideo. -/
theorem claim_C8_amended_witness :
    ((PortfolioService.deleteProject ⟨.ok ⟨some "p"⟩, .error "x", .ok ()⟩).dbDeleted = false
      ∧ (PortfolioService.deleteProject ⟨.ok ⟨some "p"⟩, .error "x", .ok ()⟩).result
          = .error ("Failed to delete project: " ++ "x"))
    ∧ (PortfolioService.deleteProjectVideo
        ⟨.ok ⟨some "v"⟩, .ok (), .error "y"⟩).dbDeleted = true :=
  ⟨claim_C8_amended.1 ⟨.ok ⟨some "p"⟩, .error "x", .ok ()⟩ "p" "x" rfl rfl,
    claim_C8_amended.2 ⟨.ok ⟨some "v"⟩, .ok (), .error "y"⟩ ⟨some "v"⟩ rfl rfl⟩

/-- Claim C9 counterexample: a connection in room sessionA, previously
joined through join-upload with a session id lacking the upload underscore
prefix, then sends join-upload for sessionB; the handler evicts nothing
(its eviction loop matches only names starting with the prefix), so the
connection ends up a member of both session rooms, not at most one, and
sessionA was not evicted. -/
theorem claim_C9_counterexample :
    (UploadSocket.joinUpload ["socket1", "sessionA"] "sessionB").1
      = ["socket1", "sessionA", "sessionB"]
    ∧ "sessionA" ∈ (UploadSocket.joinUpload ["socket1", "sessionA"] "sessionB").1
    ∧ "sessionB" ∈ (UploadSocket.joinUpload ["socket1", "sessionA"] "sessionB").1 := by
  refine ⟨by decide, by decide, by decide⟩

/-- Claim C9 amended: the join-upload handler always emits the room-joined
ready acknowledgment at once and joins the requested room, and its eviction
applies exactly to rooms whose names start with the upload underscore
prefix: every previously joined room with that prefix (other than the one
just joined) is left, and afterwards the connection is in at most one room
with that prefix; previously joined rooms without the prefix are kept, so
the at-most-one-session guarantee holds only for prefixed session ids. -/
theorem claim_C9_amended (rooms : List String) (uploadId : String) :
    (UploadSocket.joinUpload rooms uploadId).2 = [("room-joined", uploadId)]
    ∧ uploadId ∈ (UploadSocket.joinUpload rooms uploadId).1
    ∧ (∀ r ∈ rooms, startsWithJS r "upload_" = true → r ≠ uploadId →
        r ∉ (UploadSocket.joinUpload rooms uploadId).1)
    ∧ ((UploadSocket.joinUpload rooms uploadId).1.countP
        (fun r => startsWithJS r "upload_")) ≤ 1
    ∧ (∀ r ∈ rooms, startsWithJS r "upload_" = false →
        r ∈ (UploadSocket.joinUpload rooms uploadId).1) := by
  have hzero : (rooms.filter (fun r => !(startsWithJS r "upload_"))).countP
      (fun r => startsWithJS r "upload_") = 0 := by
    rw [List.countP_eq_zero]
    intro a ha
    have h2 := (List.mem_filter.mp ha).2
    simp only [Bool.not_eq_true'] at h2
    simp [h2]
  refine ⟨joinUpload_snd _ _, ?_, ?_, ?_, ?_⟩
  · rw [joinUpload_fst]
    by_cases hmem : uploadId ∈ rooms.filter (fun r => !(startsWithJS r "upload_"))
    · rw [if_pos hmem]
      exact hmem
    · rw [if_neg hmem]
      exact List.mem_append_right _ (by simp)
  · intro r hr hpre hne
    rw [joinUpload_fst]
    by_cases hmem : uploadId ∈ rooms.filter (fun r => !(startsWithJS r "upload_"))
    · rw [if_pos hmem]
      intro hin
      have h2 := (List.mem_filter.mp hin).2
      simp [hpre] at h2
    · rw [if_neg hmem]
      intro hin
      rcases List.mem_append.mp hin with h1 | h1
      · have h2 := (List.mem_filter.mp h1).2
        simp [hpre] at h2
      · exact hne (by simpa using h1)
  · rw [joinUpload_fst]
    by_cases hmem : uploadId ∈ rooms.filter (fun r => !(startsWithJS r "upload_"))
    · rw [if_pos hmem, hzero]
      exact Nat.zero_le 1
    · rw [if_neg hmem, List.countP_append, hzero]
      cases hp : startsWithJS uploadId "upload_" <;>
        simp [List.countP_cons, hp]
  · intro r hr hnp
    have hf : r ∈ rooms.filter (fun r => !(startsWithJS r "upload_")) :=
      List.mem_filter.mpr ⟨hr, by simp [hnp]⟩
    rw [joinUpload_fst]
    by_cases hmem : uploadId ∈ rooms.filter (fun r => !(startsWithJS r "upload_"))
    · rw [if_pos hmem]
      exact hf
    · rw [if_neg hmem]
      exact List.mem_append_left _ hf

/-- Witness for the amended C9 at a concrete connection holding one
prefixed room: the acknowledgement is emitted, the new room is joined,
the old prefixed room is evicted, and at most one prefixed room remains. -/
theorem claim_C9_amended_witness :
    (UploadSocket.joinUpload ["upload_a", "socket1"] "upload_b").2
      = [("room-joined", "upload_b")]
    ∧ "upload_b" ∈ (UploadSocket.joinUpload ["upload_a", "socket1"] "upload_b").1
    ∧ "upload_a" ∉ (UploadSocket.joinUpload ["upload_a", "socket1"] "upload_b").1
    ∧ ((UploadSocket.joinUpload ["upload_a", "socket1"] "upload_b").1.countP
        (fun r => startsWithJS r "upload_")) ≤ 1 := by
  obtain ⟨h1, h2, h3, h4, h5⟩ := claim_C9_amended ["upload_a", "socket1"] "upload_b"
  exact ⟨h1, h2, h3 "upload_a" (by simp) (by decide) (by decide), h4⟩

/-- Claim C10: the service-layer media classification is a function of the
original file name alone: a file is routed to the video upload path iff the
lower-cased text after the last dot of its name (the whole name when it has
no dot) is one of the six video extensions, and two uploads identical
except for their declared MIME type are routed identically, in both
createHomepageElement and updateElementMedia. -/
theorem claim_C10_name_only_classification :
    (∀ f : MulterFile,
        (HomepageService.createElementRoute f = HomepageService.MediaRoute.video
          ↔ HomepageService.videoExtensions.contains
              (toLowerJS (String.mk (afterLastDot f.originalname.data))) = true))
    ∧ (∀ (name m₁ m₂ : String) (s : ℕ),
        HomepageService.createElementRoute ⟨name, m₁, s⟩
          = HomepageService.createElementRoute ⟨name, m₂, s⟩)
    ∧ (∀ f : MulterFile,
        (HomepageService.updateElementMediaRoute f = HomepageService.MediaRoute.video
          ↔ HomepageService.videoExtensions.contains
              (toLowerJS (String.mk (afterLastDot f.originalname.data))) = true))
    ∧ (∀ (name m₁ m₂ : String) (s : ℕ),
        HomepageService.updateElementMediaRoute ⟨name, m₁, s⟩
          = HomepageService.updateElementMediaRoute ⟨name, m₂, s⟩) := by
  have hExt : ∀ name : String, HomepageService.fileExtensionOf name
      = toLowerJS (String.mk (afterLastDot name.data)) := by
    intro name
    unfold HomepageService.fileExtensionOf
    rw [lastSegment_eq_afterLastDot]
  refine ⟨?_, ?_, ?_, ?_⟩
  · intro f
    unfold HomepageService.createElementRoute HomepageService.createElementIsVideo
    rw [hExt]
    cases h : HomepageService.videoExtensions.contains
        (toLowerJS (String.mk (afterLastDot f.originalname.data))) <;> simp [h]
  · intro name m₁ m₂ s
    rfl
  · intro f
    unfold HomepageService.updateElementMediaRoute HomepageService.updateElementMediaIsVideo
    rw [hExt]
    cases h : HomepageService.videoExtensions.contains
        (toLowerJS (String.mk (afterLastDot f.originalname.data))) <;> simp [h]
  · intro name m₁ m₂ s
    rfl

/-- Witness for the amended C4 at original size 4 and compressed size 1. -/
theorem claim_C4_amended_witness :
    VideoCompressionService.compressionRatioReported 4 1
      = ((⌊(((4 : ℕ) : ℚ) - ((1 : ℕ) : ℚ)) / ((4 : ℕ) : ℚ) * 1000 + 1 / 2⌋ : ℤ) : ℚ) / 10
    ∧ |VideoCompressionService.compressionRatioReported 4 1
        - (((4 : ℕ) : ℚ) - ((1 : ℕ) : ℚ)) / ((4 : ℕ) : ℚ) * 100| ≤ 1 / 20 :=
  claim_C4_amended 4 1

/-- Witness for C5 at one concrete successful run. -/
theorem claim_C5_witness :
    VideoCompressionService.tempInputPath 5 ∉
      (VideoCompressionService.compressVideoBuffer [] 5 6 [1]
        VideoCompressionService.FfmpegOutcome.ended (.ok [2])).fs
    ∧ VideoCompressionService.tempOutputPath 6 ∉
      (VideoCompressionService.compressVideoBuffer [] 5 6 [1]
        VideoCompressionService.FfmpegOutcome.ended (.ok [2])).fs :=
  claim_C5_temp_cleanup [] 5 6 [1] VideoCompressionService.FfmpegOutcome.ended (.ok [2])

/-- Witness for the amended C7: the portfolio image config accepts a file
of five bytes with a png MIME type, at a concrete instance of the
no-size-limit conjunct. -/
theorem claim_C7_amended_witness :
    PortfolioRoutes.imageUploadAccepts ⟨"huge.png", "image/png", 5⟩ = true :=
  claim_C7_amended.2.2.2.2.1 5

/-- Witness for C10: two uploads differing only in MIME type are routed
identically at a concrete mp4 name. -/
theorem claim_C10_witness :
    HomepageService.createElementRoute ⟨"a.mp4", "video/mp4", 1⟩
      = HomepageService.createElementRoute ⟨"a.mp4", "text/plain", 1⟩ :=
  claim_C10_name_only_classification.2.1 "a.mp4" "video/mp4" "text/plain" 1
